import Mathlib

/-!
# Verification of the `etf_holdings` extraction engine

A shallow embedding, in Lean 4, of the core of `etf_holdings.py`
(the `ETFHoldingsCache` class, the three format parsers, the dispatch
in `_fetch_fresh_data`, `get_etf_holdings`, and
`get_multiple_etf_holdings`), together with theorems settling the
specification claims about it.

Modelling conventions:
* Python strings are modelled as `List Char` (`Str`); the handful of
  string operations the source uses (`strip`, `split`, `replace`,
  `upper`, `lower`, `startswith`, `endswith`, `in`) are re-implemented
  structurally so that concrete evaluations reduce in the kernel.
  `upper`/`lower` are modelled on the ASCII range (the source only
  upcases tickers and header keywords, which are ASCII).
* Python/JSON numbers are modelled as exact decimals `Dec`
  (mantissa/power-of-ten).  IEEE-754 rounding of the source is not
  modelled; for the values appearing in the claims the binary
  representation error (< 1e-15) cannot affect the 6-decimal
  rendering performed by the code, and `%.6f` tie-breaking
  (ties-to-even on the binary value) is modelled as round-half-up,
  which agrees on every exact decimal input considered here.
* Fallible Python code is embedded in `Except PyErr`; an uncaught
  Python exception is `.error`, a `try/except` block is a `match` on
  the embedded result.
* Network and filesystem effects are oracles carried by a `World`
  record; a raised `requests` exception is a `.error` value of the
  corresponding oracle.
-/

/-- Python strings, modelled as character lists so that every
operation reduces in the kernel. -/
abbrev Str := List Char

/-- Conversion from a Lean string literal to the model type. -/
def str (s : String) : Str := s.data

/-- ASCII lower-casing of one character (model of `str.lower` per char). -/
def lowC (c : Char) : Char :=
  if 65 ≤ c.toNat ∧ c.toNat ≤ 90 then Char.ofNat (c.toNat + 32) else c

/-- ASCII upper-casing of one character (model of `str.upper` per char). -/
def upC (c : Char) : Char :=
  if 97 ≤ c.toNat ∧ c.toNat ≤ 122 then Char.ofNat (c.toNat - 32) else c

/-- Model of Python `s.lower()` (ASCII range). -/
def pyLower (s : Str) : Str := s.map lowC

/-- Model of Python `s.upper()` (ASCII range). -/
def pyUpper (s : Str) : Str := s.map upC

/-- Characters treated as whitespace by `str.strip()`. -/
def isSpaceC (c : Char) : Bool :=
  c = ' ' ∨ c = '\t' ∨ c = '\n' ∨ c = '\r'

/-- Model of Python `s.strip()`. -/
def pyStrip (s : Str) : Str :=
  ((s.dropWhile isSpaceC).reverse.dropWhile isSpaceC).reverse

/-- Model of Python `s.rstrip(c)` for a single strip character. -/
def pyRstrip (s : Str) (c : Char) : Str :=
  (s.reverse.dropWhile (fun x => x = c)).reverse

/-- Model of Python `s.replace(c, "")` (every replacement the source
performs deletes a single character). -/
def removeC (s : Str) (c : Char) : Str := s.filter (fun x => x ≠ c)

/-- Model of Python `s.split(sep)` for a one-character separator. -/
def splitC (c : Char) (s : Str) : List Str :=
  match s with
  | [] => [[]]
  | x :: xs =>
    match splitC c xs with
    | [] => [[]]
    | h :: t => if x = c then [] :: h :: t else (x :: h) :: t

/-- Model of Python `s.startswith(p)`. -/
def isPre (p s : Str) : Bool :=
  match p, s with
  | [], _ => true
  | _ :: _, [] => false
  | a :: ps, b :: ss => a = b && isPre ps ss

/-- Model of Python `s.endswith(p)`. -/
def isSuf (p s : Str) : Bool := isPre p.reverse s.reverse

/-- Model of Python `p in s` (substring containment). -/
def isSub (p s : Str) : Bool :=
  match s with
  | [] => isPre p []
  | _ :: ss => isPre p s || isSub p ss

/-- Decimal rendering of a natural number, as a `Str`. -/
def natStr (n : Nat) : Str := (Nat.repr n).data

/-- Decimal rendering of an integer, as a `Str`. -/
def intStr (i : Int) : Str :=
  if i < 0 then '-' :: natStr i.natAbs else natStr i.natAbs

/-- Exact decimal number `man / 10 ^ exp`: the model of the Python
ints and floats flowing through the composition-API parser. -/
structure Dec where
  man : Int
  e10 : Nat
  deriving DecidableEq

/-- Whether the decimal is integral (model of `float.is_integer` /
arriving as a JSON integer). -/
def Dec.isInt (d : Dec) : Bool := d.man % ((10 : Int) ^ d.e10) = 0

/-- The integer value of an integral decimal (model of `int(v)`). -/
def Dec.toInt (d : Dec) : Int := d.man / ((10 : Int) ^ d.e10)

/-- The value scaled by `10^6` and rounded to an integer, half away
from zero (model of the rounding done by `f"{v:.6f}"`; see the header
note on tie-breaking). -/
def Dec.scaled6 (d : Dec) : Int :=
  if d.e10 ≤ 6 then d.man * ((10 : Int) ^ (6 - d.e10))
  else
    let p : Int := (10 : Int) ^ (d.e10 - 6)
    if d.man ≥ 0 then (2 * d.man + p).fdiv (2 * p)
    else -(((2 * (-d.man) + p)).fdiv (2 * p))

/-- Multiplication of a decimal by 100 (model of `value * 100.0`). -/
def Dec.mul100 (d : Dec) : Dec :=
  if 2 ≤ d.e10 then ⟨d.man, d.e10 - 2⟩ else ⟨d.man * ((10 : Int) ^ (2 - d.e10)), 0⟩

/-- Zero-padded 6-digit rendering of `n < 10^6`. -/
def pad6 (n : Nat) : Str :=
  let s := natStr n
  List.replicate (6 - s.length) '0' ++ s

/-- Model of `f"{v:.6f}"` on the exact decimal `v`. -/
def fmt6 (d : Dec) : Str :=
  let n := d.scaled6
  let a := n.natAbs
  (if n < 0 then ['-'] else []) ++ natStr (a / 1000000) ++ '.' :: pad6 (a % 1000000)

/-- Model of `f"{v:.6f}".rstrip("0").rstrip(".")`. -/
def trimNum (s : Str) : Str := pyRstrip (pyRstrip s '0') '.'

/-! ## JSON values and Python-level semantics -/

/-- Parsed JSON values, as handed back by `response.json()`. -/
inductive Json where
  | null
  | bool (b : Bool)
  | num (d : Dec)
  | str (s : Str)
  | arr (xs : List Json)
  | obj (kvs : List (Str × Json))

/-- The Python exceptions the embedded code can raise. -/
inductive PyErr where
  | attributeError
  | typeError
  | keyError
  | indexError
  | valueError
  deriving DecidableEq

/-- Python truthiness of a JSON value. -/
def Json.truthy : Json → Bool
  | .null => false
  | .bool b => b
  | .num d => d.man ≠ 0
  | .str s => ¬ s.isEmpty
  | .arr xs => ¬ xs.isEmpty
  | .obj kvs => ¬ kvs.isEmpty

/-- Model of `v.get(k, dflt)`: `dict.get` raises `AttributeError`
when the receiver is not a dict. -/
def jGetD (v : Json) (k : Str) (dflt : Json) : Except PyErr Json :=
  match v with
  | .obj kvs => .ok ((kvs.lookup k).getD dflt)
  | _ => .error .attributeError

/-- Model of `v.get(k)` (default `None`). -/
def jGet (v : Json) (k : Str) : Except PyErr Json := jGetD v k .null

/-- Model of `v or dflt`. -/
def jOr (v : Json) (dflt : Json) : Json := if v.truthy then v else dflt

/-- Model of `(v or "").strip()`: a falsy value becomes `""`, a truthy
string is stripped, and any other truthy value raises
`AttributeError` (no `strip` attribute). -/
def jOrStrip (v : Json) : Except PyErr Str :=
  if v.truthy then
    match v with
    | .str s => .ok (pyStrip s)
    | _ => .error .attributeError
  else .ok []

/-- Model of `v[0]`. -/
def jIndex0 (v : Json) : Except PyErr Json :=
  match v with
  | .arr (x :: _) => .ok x
  | .arr [] => .error .indexError
  | .str (c :: _) => .ok (.str [c])
  | .str [] => .error .indexError
  | .obj _ => .error .keyError
  | _ => .error .typeError

/-- Model of `for x in v`: the list of iterated items (`TypeError`
for non-iterables; dicts iterate over their keys). -/
def jIter (v : Json) : Except PyErr (List Json) :=
  match v with
  | .arr xs => .ok xs
  | .str s => .ok (s.map (fun c => .str [c]))
  | .obj kvs => .ok (kvs.map (fun kv => .str kv.1))
  | _ => .error .typeError

/-- Model of `v` as used by `.startswith` / `.replace` / `.lower`:
requires a string receiver, otherwise `AttributeError`. -/
def jStr (v : Json) : Except PyErr Str :=
  match v with
  | .str s => .ok s
  | _ => .error .attributeError

/-- Rough model of Python `str(v)` for non-number values; only the
string case is ever exercised by the claims. -/
def jToStr : Json → Str
  | .null => str "None"
  | .bool b => if b then str "True" else str "False"
  | .num d => if d.isInt then intStr d.toInt else trimNum (fmt6 d)
  | .str s => s
  | .arr _ => str "<list>"
  | .obj _ => str "<dict>"

/-- Model of `float(s)` on a stripped decimal string; `none` models
`ValueError`.  (Exponent and infinity forms of the Python grammar are
not exercised by the source data and are not modelled.) -/
def parseDec (s : Str) : Option Dec :=
  let t := pyStrip s
  let (sgn, t) : Int × Str :=
    match t with
    | '-' :: r => (-1, r)
    | '+' :: r => (1, r)
    | _ => (1, t)
  match splitC '.' t with
  | [ip] =>
    if ip ≠ [] ∧ ip.all Char.isDigit then
      some ⟨sgn * (ip.foldl (fun a c => a * 10 + (c.toNat - 48)) 0 : Nat), 0⟩
    else none
  | [ip, fp] =>
    if (ip ≠ [] ∨ fp ≠ []) ∧ ip.all Char.isDigit ∧ fp.all Char.isDigit then
      some ⟨sgn * ((ip ++ fp).foldl (fun a c => a * 10 + (c.toNat - 48)) 0 : Nat), fp.length⟩
    else none
  | _ => none

/-! ## The canonical holding record and extraction result -/

/-- The normalized holding record built by all three parsers.  The
source represents records as dicts whose key set differs per path;
fields a path does not emit are modelled as `""`. -/
structure Holding where
  ticker_fund : Str := []
  issuer : Str := []
  title : Str := []
  id_cusip : Str := []
  id_isin : Str := []
  balance : Str := []
  value_usd : Str := []
  weight_pct : Str := []
  currency : Str := []
  sector : Str := []
  country : Str := []
  country_of_risk : Str := []
  security_type : Str := []
  bbg : Str := []
  as_of_date : Str := []
  deriving DecidableEq

/-- The per-ticker result dict `{'ticker', 'rows', 'note'}`. -/
structure ExtractionResult where
  ticker : Str
  rows : List Holding
  note : Str
  deriving DecidableEq

/-- The success marker recognized in `note`: every success note the
source builds starts with `"OK via "`, and no failure note does. -/
def isSuccessNote (s : Str) : Bool := isPre (str "OK via ") s

/-- The claimed `rows`/`note` consistency invariant. -/
def resConsistent (r : ExtractionResult) : Prop :=
  r.rows ≠ [] ↔ isSuccessNote r.note = true

/-! ## Composition-API (Amundi) extraction

Embedding of `_extract_via_amundi_api` (src/etf_holdings.py:736-889).
The network call and `response.json()` are an oracle producing either
a `requests` exception, a JSON decode error, or a parsed value; the
processing after the `try` block is embedded faithfully, including
the operations that can raise on structurally malformed JSON. -/

/-- Outcome of the Amundi POST + `response.json()` (the only part of
`_extract_via_amundi_api` wrapped in `try`). -/
inductive AmundiResp where
  | reqErr (msg : Str)
  | valErr (msg : Str)
  | okJson (data : Json)

/-- Model of the local `format_number` helper
(src/etf_holdings.py:820-831). -/
def format_number : Json → Str
  | .null => []
  | .bool b => if b then str "True" else str "False"
  | .num d => if d.isInt then intStr d.toInt else trimNum (fmt6 d)
  | .str s => s
  | v => jToStr v

/-- Model of the local `format_percent` helper
(src/etf_holdings.py:833-840) restricted to an exact decimal input:
`float(value) * 100.0` rendered via `f"{pct:.6f}"` with trailing
zeros and a trailing dot stripped. -/
def format_percent (d : Dec) : Str := trimNum (fmt6 d.mul100)

/-- Model of `format_percent` on an arbitrary value: `None` maps to
`""`; non-convertible values fall back to `str(value)` through the
caught `TypeError`/`ValueError`. -/
def format_percent_j : Json → Str
  | .null => []
  | .num d => format_percent d
  | .bool b => format_percent ⟨if b then 1 else 0, 0⟩
  | .str s =>
    match parseDec s with
    | some d => format_percent d
    | none => s
  | v => jToStr v

/-- Processing of one composition entry
(src/etf_holdings.py:845-880): returns the new `as_of_date`
accumulator and the row, `none` when the entry is skipped for lack of
a name. -/
def amundiEntry (t : Str) (asOf : Str) (entry : Json) :
    Except PyErr (Option Holding × Str) := do
  let chJ ← jGet entry (str "compositionCharacteristics")
  let ch := jOr chJ (.obj [])
  let name ← jOrStrip (← jGet ch (str "name"))
  if name = [] then
    return (none, asOf)
  let asOf2 ← if asOf = [] then jOrStrip (← jGet ch (str "date")) else pure asOf
  let wEntry ← jGet entry (str "weight")
  let wv ←
    match wEntry with
    | .null => jGet ch (str "weight")
    | v => pure v
  let bbg ← jOrStrip (← jGet ch (str "bbg"))
  let title := if bbg ≠ [] then name ++ (str " (" ++ (bbg ++ str ")")) else name
  let isin ← jOrStrip (← jGet ch (str "isin"))
  let qty ← jGet ch (str "quantity")
  let currency ← jOrStrip (← jGet ch (str "currency"))
  let sector ← jOrStrip (← jGet ch (str "sector"))
  let country ← jOrStrip (← jGet ch (str "country"))
  let countryOfRisk ← jOrStrip (← jGet ch (str "countryOfRisk"))
  let secType ← jOrStrip (← jGet ch (str "type"))
  let asOfField ← jOrStrip (← jGet ch (str "date"))
  let row : Holding :=
    { ticker_fund := t
      issuer := name
      title := title
      id_cusip := []
      id_isin := isin
      balance := format_number qty
      value_usd := []
      weight_pct := format_percent_j wv
      currency := currency
      sector := sector
      country := country
      country_of_risk := countryOfRisk
      security_type := secType
      bbg := bbg
      as_of_date := asOfField }
  return (some row, asOf2)

/-- The `for entry in composition_data` loop
(src/etf_holdings.py:845-880). -/
def amundiLoop (t : Str) : List Json → List Holding → Str →
    Except PyErr (List Holding × Str)
  | [], rows, asOf => .ok (rows, asOf)
  | e :: es, rows, asOf =>
    match amundiEntry t asOf e with
    | .error err => .error err
    | .ok (none, asOf2) => amundiLoop t es rows asOf2
    | .ok (some row, asOf2) => amundiLoop t es (rows ++ [row]) asOf2

/-- Embedding of `_extract_via_amundi_api`
(src/etf_holdings.py:736-889), from the oracle response onwards. -/
def extract_via_amundi_api (t : Str) (resp : AmundiResp) :
    Except PyErr ExtractionResult :=
  match resp with
  | .reqErr msg =>
    .ok ⟨t, [], str "Failed to fetch Amundi data: " ++ msg.take 100⟩
  | .valErr msg =>
    .ok ⟨t, [], str "Invalid JSON from Amundi API: " ++ msg.take 100⟩
  | .okJson data =>
    match jGet data (str "products") with
    | .error e => .error e
    | .ok productsJ =>
      let products := jOr productsJ (.arr [])
      if ¬ products.truthy then
        .ok ⟨t, [], str "No product data returned by Amundi API."⟩
      else
        match jIndex0 products with
        | .error e => .error e
        | .ok product =>
          match jGet product (str "composition") with
          | .error e => .error e
          | .ok compositionJ =>
            match jGet (jOr compositionJ (.obj [])) (str "compositionData") with
            | .error e => .error e
            | .ok compDataJ =>
              let compData := jOr compDataJ (.arr [])
              if ¬ compData.truthy then
                .ok ⟨t, [], str "No composition data returned by Amundi API."⟩
              else
                match jIter compData with
                | .error e => .error e
                | .ok entries =>
                  match amundiLoop t entries [] [] with
                  | .error e => .error e
                  | .ok (rows, asOf) =>
                    let suffix := if asOf ≠ [] then str " as of " ++ asOf else []
                    .ok ⟨t, rows,
                      str "OK via Amundi API (" ++
                        (natStr rows.length ++ (str " holdings" ++ (suffix ++ str ")")))⟩

/-! ## Hierarchical-filing (N-PORT XML) parser

Embedding of `_parse_nport_xml` (src/etf_holdings.py:1027-1107).
An XML element carries its namespace URI, tag, text node and
children; a fetched document is its raw text plus the result of
`etree.fromstring` (`none` models a parse failure) and the root's
prefix→URI `nsmap`. -/

/-- An XML element: namespace URI, tag, optional text node, children. -/
inductive XElem where
  | el (ns : Option Str) (tag : Str) (txt : Option Str) (children : List XElem)

def XElem.ns : XElem → Option Str
  | .el n _ _ _ => n

def XElem.tag : XElem → Str
  | .el _ t _ _ => t

def XElem.txt : XElem → Option Str
  | .el _ _ x _ => x

def XElem.children : XElem → List XElem
  | .el _ _ _ cs => cs

mutual

/-- Descendant-or-self axis of one element, in document order. -/
def descE : XElem → List XElem
  | .el n t x cs => .el n t x cs :: descL cs

/-- Descendant-or-self axis of a forest, in document order. -/
def descL : List XElem → List XElem
  | [] => []
  | c :: cs => descE c ++ descL cs

end

/-- A fetched document: decoded text, parsed XML root (`none` =
`etree.fromstring` raised), and the root's namespace map. -/
structure Doc where
  raw : Str
  xml : Option XElem
  nsmap : List (Str × Str)

/-- The namespace dict of `_parse_nport_xml`
(src/etf_holdings.py:1034-1043): fixed prefixes, overridden by the
root's `nsmap`. -/
def nsDefaults : List (Str × Str) :=
  [ (str "edgar", str "http://www.sec.gov/edgar/nport")
  , (str "com", str "http://www.sec.gov/edgar/common")
  , (str "ncom", str "http://www.sec.gov/edgar/nportcommon")
  , (str "xsi", str "http://www.w3.org/2001/XMLSchema-instance") ]

/-- Resolution of an XPath prefix against the namespace dict. -/
def nsResolve (nsmap : List (Str × Str)) (p : Str) : Str :=
  ((nsmap.lookup p).getD ((nsDefaults.lookup p).getD []))

/-- One structural query pattern: `.//A//B` or `.//A`, with optional
namespace prefixes. -/
inductive Q where
  | two (p1 : Option Str) (t1 : Str) (p2 : Option Str) (t2 : Str)
  | one (p : Option Str) (t : Str)
  deriving DecidableEq

/-- The ordered candidate patterns of `_parse_nport_xml`
(src/etf_holdings.py:1045-1052). -/
def candidates : List Q :=
  [ .two (some (str "edgar")) (str "invstOrSecs") (some (str "edgar")) (str "invstOrSec")
  , .two none (str "invstOrSecs") none (str "invstOrSec")
  , .two none (str "investmentOrSecs") none (str "investmentOrSec")
  , .one none (str "invstOrSec")
  , .one none (str "investment")
  , .one none (str "position") ]

/-- Whether an element matches a (prefix, tag) name test: an
unprefixed test matches only null-namespace elements. -/
def matchesNT (nsmap : List (Str × Str)) (p : Option Str) (t : Str) (e : XElem) : Bool :=
  (e.tag == t) && (match p with
    | none => e.ns == none
    | some pre => e.ns == some (nsResolve nsmap pre))

/-- Evaluation of one candidate pattern from the root. -/
def evalQ (nsmap : List (Str × Str)) (root : XElem) : Q → List XElem
  | .one p t => (descE root).filter (matchesNT nsmap p t)
  | .two p1 t1 p2 t2 =>
    ((descE root).filter (matchesNT nsmap p1 t1)).flatMap
      (fun a => (descL a.children).filter (matchesNT nsmap p2 t2))

/-- The inner `get_text` helper (src/etf_holdings.py:1065-1072): for
each candidate tag under the prefixes `edgar:`, `ncom:`, `""`, the
first descendant with a text node wins; its text is stripped. -/
def getTextOne (nsmap : List (Str × Str)) (sec : XElem) (p : Option Str) (t : Str) :
    Option Str :=
  match (descE sec).filter
      (fun e => matchesNT nsmap p t e && e.txt.isSome) with
  | [] => none
  | e :: _ => some (pyStrip (e.txt.getD []))

def getTextTag (nsmap : List (Str × Str)) (sec : XElem) (t : Str) : Option Str :=
  match getTextOne nsmap sec (some (str "edgar")) t with
  | some s => some s
  | none =>
    match getTextOne nsmap sec (some (str "ncom")) t with
    | some s => some s
    | none => getTextOne nsmap sec none t

def getText (nsmap : List (Str × Str)) (sec : XElem) : List Str → Str
  | [] => []
  | t :: ts =>
    match getTextTag nsmap sec t with
    | some s => s
    | none => getText nsmap sec ts

/-- Field extraction for one matched position node
(src/etf_holdings.py:1074-1094); `none` when the record is not
retained (no issuer, title or CUSIP). -/
def nportRow (nsmap : List (Str × Str)) (t : Str) (sec : XElem) : Option Holding :=
  let issuer := getText nsmap sec [str "issuer", str "issuerName", str "name"]
  let title := getText nsmap sec [str "title", str "description", str "securityTitle"]
  let cusip := getText nsmap sec [str "cusip", str "cusipNum"]
  let isin := getText nsmap sec [str "isin", str "isinNum"]
  let balance := getText nsmap sec [str "balance", str "shares", str "amount", str "qty"]
  let value := getText nsmap sec [str "valUSD", str "value", str "fairValue", str "marketValue"]
  let pct := getText nsmap sec [str "pctVal", str "percentOfPortfolio", str "weight"]
  if issuer ≠ [] ∨ title ≠ [] ∨ cusip ≠ [] then
    some { ticker_fund := t
           issuer := if issuer ≠ [] then issuer else title
           title := title
           id_cusip := cusip
           id_isin := isin
           balance := balance
           value_usd := value
           weight_pct := pct }
  else none

/-- The `for path in candidates` loop (src/etf_holdings.py:1054-1101):
rows accumulate across patterns and the loop stops at the first
pattern after which `rows` is non-empty. -/
def nportLoop (nsmap : List (Str × Str)) (root : XElem) (t : Str) :
    List Q → List Holding → List Holding
  | [], rows => rows
  | q :: qs, rows =>
    let positions := evalQ nsmap root q
    if positions.isEmpty then nportLoop nsmap root t qs rows
    else
      let rows2 := rows ++ positions.filterMap (nportRow nsmap t)
      if rows2.isEmpty then nportLoop nsmap root t qs rows2 else rows2

/-- Embedding of `_parse_nport_xml` (src/etf_holdings.py:1027-1107):
total, returning `[]` when `etree.fromstring` fails. -/
def parse_nport_xml (doc : Doc) (t : Str) : List Holding :=
  match doc.xml with
  | none => []
  | some root => nportLoop doc.nsmap root t candidates []

/-! ## Tabular-feed (iShares CSV) parser

Embedding of `_parse_ishares_csv` (src/etf_holdings.py:654-734) and
`_extract_via_ishares_csv` (src/etf_holdings.py:619-652).
`csv.DictReader` is modelled for unquoted fields (the quote-handling
of the `csv` module is not exercised by any claim): each record maps
the header fields to the comma-split values, missing trailing fields
becoming the reader's `None` restval, and blank lines being skipped
as the reader does. -/

/-- A CSV record as produced by `csv.DictReader`: header key →
value, `none` modelling the `None` restval of a short row. -/
abbrev CsvRec := List (Str × Option Str)

/-- Pair header fields with the split values of one line. -/
def recordOf : List Str → List Str → CsvRec
  | [], _ => []
  | h :: hs, [] => (h, none) :: recordOf hs []
  | h :: hs, v :: vs => (h, some v) :: recordOf hs vs

/-- Model of `row.get(k, "") or ""` and of
`safe_clean(row.get(k, ""))`'s `None` handling: an absent key and a
`None` value both yield `""`. -/
def rowGetStr (rec : CsvRec) (k : Str) : Str :=
  match rec.lookup k with
  | some (some v) => v
  | _ => []

/-- The inner `safe_clean` helper (src/etf_holdings.py:692-701):
drop thousands separators, currency signs and quotes, then strip. -/
def safe_clean (s : Str) : Str :=
  pyStrip (removeC (removeC (removeC s ',') '$') '"')

/-- Processing of one CSV record (src/etf_holdings.py:683-717):
`none` when the record is skipped. -/
def isharesRow (t : Str) (rec : CsvRec) : Option Holding :=
  let tickerVal := rowGetStr rec (str "Ticker")
  let nameVal := rowGetStr rec (str "Name")
  if tickerVal = [] ∨ tickerVal = str "-" ∨ nameVal = [] then none
  else
    let h : Holding :=
      { ticker_fund := t
        issuer := safe_clean nameVal
        title := safe_clean nameVal ++ (str " (" ++ (safe_clean tickerVal ++ str ")"))
        id_cusip := []
        id_isin := []
        balance := safe_clean (rowGetStr rec (str "Quantity"))
        value_usd := safe_clean (rowGetStr rec (str "Market Value"))
        weight_pct := safe_clean (rowGetStr rec (str "Weight (%)")) }
    if h.issuer ≠ [] ∧ h.issuer ≠ str "-" then some h else none

/-- Embedding of `_parse_ishares_csv` (src/etf_holdings.py:654-734). -/
def parse_ishares_csv (content : Str) (t : Str) : ExtractionResult :=
  let lines := splitC '\n' (pyStrip content)
  match lines.findIdx? (fun l => isPre (str "Ticker,Name,Sector") l) with
  | none => ⟨t, [], str "Could not find CSV header in iShares data"⟩
  | some i =>
    let dataLines := lines.drop i
    let header := splitC ',' (dataLines.headD [])
    let recs := ((dataLines.drop 1).filter (fun l => ¬ l.isEmpty)).map
      (fun l => recordOf header (splitC ',' l))
    let rows := recs.filterMap (isharesRow t)
    ⟨t, rows,
      str "OK via iShares CSV download (" ++ (natStr rows.length ++ str " holdings)")⟩

/-- Outcome of an oracle network fetch; `msg` is `str(e)`. -/
structure FetchErr where
  msg : Str

/-- Embedding of `_extract_via_ishares_csv`
(src/etf_holdings.py:619-652): a raised download error degrades to a
failure note. -/
def extract_via_ishares_csv (t : Str) (resp : Except FetchErr Str) : ExtractionResult :=
  match resp with
  | .error e => ⟨t, [], str "Failed to download iShares CSV: " ++ e.msg.take 100⟩
  | .ok content => parse_ishares_csv content t

/-! ## Filing catalog, document disambiguation, regulatory-filing path

Embeddings of `_get_submissions` / `_list_recent_filings_for_cik`
(src/etf_holdings.py:892-931), `_fetch_filing_docs` (933-945),
`_find_nport_doc` (947-964), `_find_ticker_in_content` (982-1025)
and `_extract_via_known_mapping` (442-512). -/

/-- Outcome of the submissions GET + `r.json()`: `_get_submissions`
catches only `requests.exceptions.RequestException` (yielding `{}`);
a JSON decode error (`ValueError`) escapes it. -/
inductive SubResp where
  | reqErr
  | jsonErr
  | okJson (data : Json)

/-- One entry of the list built by `_list_recent_filings_for_cik`
(src/etf_holdings.py:918-928). -/
structure FilingRec where
  form : Str
  accession : Str
  filingDate : Str
  primaryDoc : Json

/-- Truncating 4-way zip (model of Python `zip`). -/
def zip4 : List Json → List Json → List Json → List Json →
    List (Json × Json × Json × Json)
  | f :: fs, a :: as_, d :: ds, p :: ps => (f, a, d, p) :: zip4 fs as_ ds ps
  | _, _, _, _ => []

/-- The filtered entries of the `for f, a, d, fd in zip(...)` loop
(src/etf_holdings.py:919-928).  Matching the form requires a string;
the accession `.replace` and the filing-date sort comparison also
require strings, modelled eagerly at entry construction. -/
def filingEntries : List (Json × Json × Json × Json) →
    Except PyErr (List FilingRec)
  | [] => .ok []
  | (f, a, d, p) :: rest => do
    let form ← jStr f
    if (str "NPORT-P").isPrefixOf form ∨ (str "NPORT-EX").isPrefixOf form then
      let acc ← jStr a
      let date ← jStr d
      let tail ← filingEntries rest
      return ⟨form, removeC acc '-', date, p⟩ :: tail
    else
      filingEntries rest

/-- Lexicographic comparison by code point (model of Python `str <`). -/
def strLt : Str → Str → Bool
  | [], [] => false
  | [], _ :: _ => true
  | _ :: _, [] => false
  | a :: as_, b :: bs => if a < b then true else if a = b then strLt as_ bs else false

/-- Stable insertion for a descending sort by filing date (model of
`out.sort(key=..., reverse=True)`). -/
def insertDesc (x : FilingRec) : List FilingRec → List FilingRec
  | [] => [x]
  | y :: ys =>
    if ¬ strLt x.filingDate y.filingDate then x :: y :: ys
    else y :: insertDesc x ys

def sortDesc : List FilingRec → List FilingRec
  | [] => []
  | x :: xs => insertDesc x (sortDesc xs)

/-- Embedding of `_get_submissions` + `_list_recent_filings_for_cik`
(src/etf_holdings.py:892-931). -/
def list_recent_filings (resp : SubResp) : Except PyErr (List FilingRec) := do
  let sub : Json ←
    match resp with
    | .reqErr => pure (.obj [])
    | .jsonErr => .error .valueError
    | .okJson j => pure j
  let filings ← jGetD sub (str "filings") (.obj [])
  let recent ← jGetD filings (str "recent") (.obj [])
  let forms ← jIter (← jGetD recent (str "form") (.arr []))
  let accession ← jIter (← jGetD recent (str "accessionNumber") (.arr []))
  let primaryDocs ← jIter (← jGetD recent (str "primaryDocument") (.arr []))
  let filingDates ← jIter (← jGetD recent (str "filingDate") (.arr []))
  let out ← filingEntries (zip4 forms accession filingDates primaryDocs)
  return sortDesc out

/-- First pass of `_find_nport_doc` (src/etf_holdings.py:949-952). -/
def fndPass1 : List Json → Except PyErr (Option Str)
  | [] => .ok none
  | f :: fs => do
    let nm ← jStr ((← jGetD f (str "name") (.str [])))
    if pyLower nm = str "primary_doc.xml" then return some nm
    else fndPass1 fs

/-- Second pass of `_find_nport_doc` (src/etf_holdings.py:954-957). -/
def fndPass2 : List Json → Except PyErr (Option Str)
  | [] => .ok none
  | f :: fs => do
    let nm ← jStr ((← jGetD f (str "name") (.str [])))
    let low := pyLower nm
    if isSuf (str ".xml") low ∧ isSub (str "nport") low then
      return some (jToStr ((← jGet f (str "name"))))
    else fndPass2 fs

/-- Third pass of `_find_nport_doc` (src/etf_holdings.py:959-962). -/
def fndPass3 : List Json → Except PyErr (Option Str)
  | [] => .ok none
  | f :: fs => do
    let nm ← jStr ((← jGetD f (str "name") (.str [])))
    if isSuf (str ".xml") (pyLower nm) then
      return some (jToStr ((← jGet f (str "name"))))
    else fndPass3 fs

/-- Embedding of `_find_nport_doc` (src/etf_holdings.py:947-964). -/
def find_nport_doc (files : List Json) : Except PyErr (Option Str) := do
  match ← fndPass1 files with
  | some nm => return some nm
  | none =>
    match ← fndPass2 files with
    | some nm => return some nm
    | none => fndPass3 files

/-- Embedding of `_find_ticker_in_content`
(src/etf_holdings.py:982-1025): total (its whole body is wrapped in
`try/except: return False`). -/
def find_ticker_in_content (content : Str) (t : Str) (sid : Option Str) : Bool :=
  let text := content.take 100000
  let seriesHit :=
    match sid with
    | some s =>
      [ str "<seriesId>" ++ (s ++ str "</seriesId>")
      , str "seriesId=\"" ++ (s ++ str "\"")
      , '>' :: (s ++ str "<") ].any (fun p => isSub p text)
    | none => false
  if seriesHit then true
  else
    let pats :=
      [ str "<ticker>" ++ (t ++ str "</ticker>")
      , str "ticker=\"" ++ (t ++ str "\"")
      , '>' :: (t ++ str "<")
      , ' ' :: (t ++ str " ") ] ++
      (if t = str "VTI" then
        [str "TOTAL STOCK MARKET", str "VANGUARD TOTAL STOCK MARKET INDEX"]
      else if t = str "VONV" then
        [str "RUSSELL 1000 VALUE", str "VANGUARD RUSSELL 1000 VALUE INDEX"]
      else [])
    pats.any (fun p => isSub (pyLower p) (pyLower text))

/-! ## World oracles and the known-mapping / auto-discovery paths -/

/-- One auto-discovered filing directory: its name and the document
obtained from `full-submission.txt` (`none` models a missing
submission file or an empty XML extraction, both of which `continue`). -/
structure AutoFiling where
  dirName : Str
  content : Option Doc

/-- The external world: current time, configuration flags, and the
network/filesystem oracles.  Every oracle `.error` stands for a
raised `requests`/OS exception at that call. -/
structure World where
  now : Int
  enableCache : Bool
  enableAutoDiscovery : Bool
  ishares : Str → Except FetchErr Str
  amundi : Str → AmundiResp
  submissions : Str → SubResp
  filingDocs : Str → Str → Except FetchErr (Str × Json)
  document : Str → Except FetchErr Doc
  autoMapping : Str → Option Str
  autoDownload : Str → Nat → Except FetchErr Nat
  autoFilings : Str → Option (List AutoFiling)

/-- The `KNOWN_ETF_CIKS` table (src/etf_holdings.py:259-278). -/
def KNOWN_ETF_CIKS : List (Str × (Str × Option Str × Option Str)) :=
  [ (str "RSP", (str "0001064642", none, none))
  , (str "AIQ", (str "0001432353", none, none))
  , (str "NLR", (str "0001137360", none, none))
  , (str "FENY", (str "0001284940", none, none))
  , (str "VTI", (str "0000036405", some (str "S000002848"), none))
  , (str "VONV", (str "0000036405", none, none))
  , (str "XSHQ", (str "0001378872", none, none))
  , (str "USCA", (str "0001540305", none, none))
  , (str "QQQ", (str "0001067839", none, none))
  , (str "SPY", (str "0000884394", none, none)) ]

/-- The `ISHARES_ETF_MAPPINGS` table (src/etf_holdings.py:281-292). -/
def ISHARES_ETF_MAPPINGS : List (Str × Str) :=
  [ (str "URTH", str "239696")
  , (str "IVV", str "239726")
  , (str "EFA", str "239623")
  , (str "IEMG", str "244048")
  , (str "ACWI", str "239600")
  , (str "AGG", str "239458")
  , (str "IJH", str "239763")
  , (str "IJR", str "239774")
  , (str "IEFA", str "251622")
  , (str "ITOT", str "239724") ]

/-- The keys of the `AMUNDI_ETF_MAPPINGS` table with their product
ids (src/etf_holdings.py:295-323); the request-construction fields
(`base_url`, `context`) do not influence the extracted result and
are not modelled. -/
def AMUNDI_ETF_MAPPINGS : List (Str × Str) :=
  [ (str "CG1", str "FR0010655712")
  , (str "CS1", str "FR0010655746")
  , (str "FMI", str "LU1681037518") ]

/-- Model of the chain `idx.get("directory", ...).get("item", ...)`
iterated as a list (src/etf_holdings.py:944). -/
def filingFiles (idx : Json) : Except PyErr (List Json) :=
  match jGetD idx (str "directory") (.obj []) with
  | .error e => .error e
  | .ok dir =>
    match jGetD dir (str "item") (.arr []) with
    | .error e => .error e
    | .ok items => jIter items

/-- One iteration of the filing loop of `_extract_via_known_mapping`
(src/etf_holdings.py:466-506): the whole body is wrapped in
`try/except Exception: continue`, so every failure yields `none`. -/
def tryFiling (w : World) (t : Str) (cik : Str) (sid : Option Str)
    (f : FilingRec) : Option ExtractionResult :=
  match w.filingDocs cik f.accession with
  | .error _ => none
  | .ok (base, idx) =>
    match filingFiles idx with
    | .error _ => none
    | .ok files =>
      match find_nport_doc files with
      | .error _ => none
      | .ok none => none
      | .ok (some docname) =>
        match w.document (base ++ ('/' :: docname)) with
        | .error _ => none
        | .ok doc =>
          if sid.isSome ∧ ¬ find_ticker_in_content doc.raw t sid then none
          else if (parse_nport_xml doc t).isEmpty then none
          else some ⟨t, parse_nport_xml doc t,
            str "OK via " ++ (f.form ++ (' ' :: (f.filingDate ++ str " (known mapping)")))⟩

/-- The filing loop itself: first filing that returns a result wins. -/
def knownLoop (w : World) (t : Str) (cik : Str) (sid : Option Str) :
    List FilingRec → Option ExtractionResult
  | [] => none
  | f :: fs =>
    match tryFiling w t cik sid f with
    | some res => some res
    | none => knownLoop w t cik sid fs

/-- The CIK of a known ticker (first component of its mapping). -/
def knownCik (t : Str) : Str := ((KNOWN_ETF_CIKS.lookup t).getD (([], none, none))).1

/-- The series constraint of a known ticker. -/
def knownSid (t : Str) : Option Str :=
  ((KNOWN_ETF_CIKS.lookup t).getD (([], none, none))).2.1

/-- Embedding of `_extract_via_known_mapping`
(src/etf_holdings.py:442-512). -/
def extract_via_known_mapping (w : World) (t : Str) (mf : Nat) :
    Except PyErr ExtractionResult :=
  match list_recent_filings (w.submissions (knownCik t)) with
  | .error e => .error e
  | .ok filings =>
    if filings.isEmpty then
      .ok ⟨t, [], str "No N-PORT filings found for this CIK."⟩
    else
      match knownLoop w t (knownCik t) (knownSid t) (filings.take mf) with
      | some res => .ok res
      | none => .ok ⟨t, [],
          str "No holdings found after checking " ++
            (natStr (filings.take mf).length ++ str " filings.")⟩

/-- Stable insertion for the descending directory sort of
`_parse_auto_discovered_filings` (src/etf_holdings.py:575-577). -/
def insertDescAF (x : AutoFiling) : List AutoFiling → List AutoFiling
  | [] => [x]
  | y :: ys =>
    if ¬ strLt x.dirName y.dirName then x :: y :: ys
    else y :: insertDescAF x ys

def sortDescAF : List AutoFiling → List AutoFiling
  | [] => []
  | x :: xs => insertDescAF x (sortDescAF xs)

/-- The filing-directory loop of `_parse_auto_discovered_filings`
(src/etf_holdings.py:579-611). -/
def autoLoop (t : Str) : List AutoFiling → Option ExtractionResult
  | [] => none
  | d :: ds =>
    match d.content with
    | none => autoLoop t ds
    | some doc =>
      let rows := parse_nport_xml doc t
      if rows.isEmpty then autoLoop t ds
      else
        let date :=
          if isSub (str "-") d.dirName then (splitC '-' d.dirName).headD []
          else str "unknown"
        some ⟨t, rows, str "OK via NPORT-P " ++ (date ++ str " (auto-discovery)")⟩

/-- Embedding of `_parse_auto_discovered_filings`
(src/etf_holdings.py:561-617). -/
def parse_auto_discovered_filings (w : World) (t : Str) (cik : Str) :
    ExtractionResult :=
  match w.autoFilings cik with
  | none => ⟨t, [], str "No downloaded filings found."⟩
  | some dirs =>
    match autoLoop t (sortDescAF dirs) with
    | some res => res
    | none => ⟨t, [],
        str "No holdings found in " ++
          (natStr (sortDescAF dirs).length ++ str " auto-discovered filings.")⟩

/-- Embedding of `_extract_via_auto_discovery`
(src/etf_holdings.py:514-559). -/
def extract_via_auto_discovery (w : World) (t : Str) (mf : Nat) :
    ExtractionResult :=
  match w.autoMapping t with
  | none => ⟨t, [], str "Ticker not found in automatic discovery database."⟩
  | some cik =>
    match w.autoDownload cik (min mf 10) with
    | .error e => ⟨t, [], str "Auto-discovery failed: " ++ e.msg.take 100⟩
    | .ok 0 => ⟨t, [], str "No NPORT-P filings found via auto-discovery."⟩
    | .ok (_ + 1) => parse_auto_discovered_filings w t cik

/-- Embedding of `_fetch_fresh_data` (src/etf_holdings.py:409-440):
the fixed dispatch order over the mapping tables. -/
def fetch_fresh (w : World) (t : Str) (mf : Nat) : Except PyErr ExtractionResult :=
  if (ISHARES_ETF_MAPPINGS.lookup t).isSome then
    .ok (extract_via_ishares_csv t (w.ishares t))
  else if (AMUNDI_ETF_MAPPINGS.lookup t).isSome then
    extract_via_amundi_api t (w.amundi t)
  else if (KNOWN_ETF_CIKS.lookup t).isSome then
    extract_via_known_mapping w t mf
  else if w.enableAutoDiscovery then
    .ok (extract_via_auto_discovery w t mf)
  else
    .ok ⟨t, [], str "CIK/series not found via known trusts (auto-discovery disabled)."⟩

/-! ## Disk cache

Embedding of `ETFHoldingsCache` (src/etf_holdings.py:33-248).  A file
key is the `(TICKER.upper(), max_filings)` pair encoded in the cache
filename; file contents are the parsed JSON dicts the class writes
and reads (`Dict`); time is integer days (the class compares
`datetime.now()` against mtime + `cache_ttl_days` days).  OS-level
I/O faults (whose handlers return `None`/log) are not modelled. -/

/-- The cache-stamp value stored under `"_cache_info"`
(src/etf_holdings.py:139-144). -/
structure CacheStamp where
  ticker : Str
  maxFilings : Nat
  cachedAt : Int
  filename : Str × Nat
  deriving DecidableEq

/-- A value of a result dict: the source stores strings, the row
list, and the cache stamp. -/
inductive DVal where
  | s (v : Str)
  | rows (v : List Holding)
  | stamp (v : CacheStamp)
  deriving DecidableEq

/-- A Python dict as stored in and read from cache payload files. -/
abbrev Dict := List (Str × DVal)

/-- Model of dict assignment `d[k] = v`. -/
def dictSet (d : Dict) (k : Str) (v : DVal) : Dict :=
  (d.filter (fun kv => kv.1 ≠ k)) ++ [(k, v)]

/-- One entry of the `cache_info.json` metadata index
(src/etf_holdings.py:152-157); the statistics-only
`holdings_count` field is not modelled. -/
structure InfoEntry where
  filename : Str × Nat
  maxFilings : Nat
  cachedAt : Int
  deriving DecidableEq

/-- A payload file: modification time and parsed contents. -/
structure CacheFile where
  mtime : Int
  content : Dict
  deriving DecidableEq

/-- The cache state: TTL in days, payload files keyed by filename,
and the metadata index keyed by ticker. -/
structure CacheState where
  ttl : Int
  files : List ((Str × Nat) × CacheFile)
  info : List (Str × InfoEntry)
  deriving DecidableEq

/-- Association-list update mirroring dict/file overwrite. -/
def assocSet {α β : Type} [DecidableEq α] (l : List (α × β)) (k : α) (v : β) :
    List (α × β) :=
  (l.filter (fun kv => kv.1 ≠ k)) ++ [(k, v)]

/-- Model of `_get_cache_filename` (src/etf_holdings.py:59-62). -/
def getCacheFilename (t : Str) (mf : Nat) : Str × Nat := (pyUpper t, mf)

/-- Validity check against an explicit file store (the heart of
`is_cache_valid`, src/etf_holdings.py:82-105). -/
def isCacheValidCore (now ttl : Int) (files : List ((Str × Nat) × CacheFile))
    (t : Str) (mf : Nat) : Bool :=
  if ttl ≤ 0 then false
  else
    match files.lookup (getCacheFilename t mf) with
    | none => false
    | some f => ¬ (now > f.mtime + ttl)

/-- Embedding of `is_cache_valid` (src/etf_holdings.py:82-105). -/
def is_cache_valid (now : Int) (st : CacheState) (t : Str) (mf : Nat) : Bool :=
  isCacheValidCore now st.ttl st.files t mf

/-- Embedding of `get_cached_data` (src/etf_holdings.py:107-124). -/
def get_cached_data (now : Int) (st : CacheState) (t : Str) (mf : Nat) :
    Option Dict :=
  if is_cache_valid now st t mf then
    (st.files.lookup (getCacheFilename t mf)).map (fun f => f.content)
  else none

/-- Embedding of `store_data` (src/etf_holdings.py:126-164). -/
def store_data (now : Int) (st : CacheState) (t : Str) (mf : Nat) (data : Dict) :
    CacheState :=
  if st.ttl ≤ 0 then st
  else
    let key := getCacheFilename t mf
    let cachedData := dictSet data (str "_cache_info") (.stamp ⟨t, mf, now, key⟩)
    { st with
        files := assocSet st.files key ⟨now, cachedData⟩
        info := assocSet st.info t ⟨key, mf, now⟩ }

/-- The `for ticker, ticker_info in info.items()` loop of
`cleanup_expired` (src/etf_holdings.py:232-238): validity is checked
against the file store as it stands when the entry is visited. -/
def cleanupLoop (now ttl : Int) :
    List (Str × InfoEntry) → List ((Str × Nat) × CacheFile) → List Str →
      List ((Str × Nat) × CacheFile) × List Str
  | [], files, expired => (files, expired)
  | (tk, ie) :: rest, files, expired =>
    if isCacheValidCore now ttl files tk ie.maxFilings then
      cleanupLoop now ttl rest files expired
    else
      cleanupLoop now ttl rest (files.filter (fun f => f.1 ≠ ie.filename))
        (expired ++ [tk])

/-- Embedding of `cleanup_expired` (src/etf_holdings.py:227-248):
returns the count of removed index entries and the new state. -/
def cleanup_expired (now : Int) (st : CacheState) : Nat × CacheState :=
  let p := cleanupLoop now st.ttl st.info st.files []
  let info2 := st.info.filter (fun e => ¬ e.1 ∈ p.2)
  (p.2.length, { st with files := p.1, info := info2 })

/-! ## Orchestrator and batch operation -/

/-- The result dict `{'ticker': ..., 'rows': ..., 'note': ...}` built
by every extraction path. -/
def resToDict (r : ExtractionResult) : Dict :=
  [ (str "ticker", .s r.ticker), (str "rows", .rows r.rows), (str "note", .s r.note) ]

/-- Embedding of `get_etf_holdings` (src/etf_holdings.py:376-407):
returns the result dict and the updated cache state. -/
def get_etf_holdings (w : World) (st : CacheState) (ticker : Str) (mf : Nat) :
    Except PyErr (Dict × CacheState) :=
  let t := pyUpper ticker
  match (if w.enableCache then get_cached_data w.now st t mf else none) with
  | some cached => .ok (cached.filter (fun kv => kv.1 ≠ str "_cache_info"), st)
  | none =>
    match fetch_fresh w t mf with
    | .error e => .error e
    | .ok r =>
      let d := resToDict r
      let st2 :=
        if w.enableCache ∧ r.rows ≠ [] then store_data w.now st t mf d else st
      .ok (d, st2)

/-- The summary block of the batch result
(src/etf_holdings.py:1238-1242). -/
structure BatchSummary where
  total_etfs_processed : Nat
  etfs_with_holdings : Nat
  total_positions : Nat
  deriving DecidableEq

/-- The consolidated batch result (src/etf_holdings.py:1235-1243). -/
structure BatchResult where
  individual_results : List (Str × ExtractionResult)
  consolidated_holdings : List Holding
  summary : BatchSummary
  deriving DecidableEq

/-- The per-ticker loop of `get_multiple_etf_holdings`
(src/etf_holdings.py:1225-1233), abstracting the per-ticker
extraction as a deterministic oracle `fetch` (with the fixed `World`
and cache of the extractor, repeated calls for the same ticker
return the same result). -/
def gmhLoop (fetch : Str → ExtractionResult) :
    List Str → List (Str × ExtractionResult) → List Holding →
      List (Str × ExtractionResult) × List Holding
  | [], acc, rows => (acc, rows)
  | t :: ts, acc, rows =>
    let r := fetch t
    let acc2 := assocSet acc t r
    let rows2 := if r.rows ≠ [] then rows ++ r.rows else rows
    gmhLoop fetch ts acc2 rows2

/-- Embedding of `get_multiple_etf_holdings`
(src/etf_holdings.py:1206-1245). -/
def get_multiple_etf_holdings (fetch : Str → ExtractionResult)
    (tickers : List Str) : BatchResult :=
  let (allResults, allRows) := gmhLoop fetch tickers [] []
  { individual_results := allResults
    consolidated_holdings := allRows
    summary :=
      { total_etfs_processed := tickers.length
        etfs_with_holdings :=
          (allResults.filter (fun kv => kv.2.rows ≠ [])).length
        total_positions := allRows.length } }

/-! ## Worlds, claim instances, and auxiliary definitions -/

/-- Whether an embedded computation returned normally. -/
def exIsOk {ε α : Type} : Except ε α → Bool
  | .ok _ => true
  | .error _ => false

/-- The raised exception, if any. -/
def exErr {ε α : Type} : Except ε α → Option ε
  | .ok _ => none
  | .error e => some e

/-- The returned value, if any. -/
def exVal {ε α : Type} : Except ε α → Option α
  | .ok a => some a
  | .error _ => none

/-- An inert world: every oracle fails with a transport error, both
features are off. -/
def trivWorld : World where
  now := 0
  enableCache := false
  enableAutoDiscovery := false
  ishares := fun _ => .error ⟨str "connection refused"⟩
  amundi := fun _ => .reqErr (str "connection refused")
  submissions := fun _ => .reqErr
  filingDocs := fun _ _ => .error ⟨str "connection refused"⟩
  document := fun _ => .error ⟨str "connection refused"⟩
  autoMapping := fun _ => none
  autoDownload := fun _ _ => .error ⟨str "connection refused"⟩
  autoFilings := fun _ => none

/-- A composition entry with `weight = 0.0325` and its API response
wrapper. -/
def c9entry : Json :=
  .obj [ (str "compositionCharacteristics",
            .obj [(str "name", .str (str "SAP SE"))])
       , (str "weight", .num ⟨325, 4⟩) ]

def c9resp : AmundiResp :=
  .okJson (.obj [(str "products",
    .arr [.obj [(str "composition",
      .obj [(str "compositionData", .arr [c9entry])])]])])

/-- A world whose iShares feed returns a header-only CSV. -/
def wC1bad : World :=
  { trivWorld with ishares := fun _ => .ok (str "Ticker,Name,Sector") }

/-- A world whose iShares feed returns one valid record. -/
def wC1ok : World :=
  { trivWorld with ishares := fun _ => .ok (str "Ticker,Name,Sector\nAAPL,Apple Inc,Tech") }

/-- A fetch oracle that always returns one holding. -/
def fetchC6 : Str → ExtractionResult :=
  fun t => ⟨pyUpper t, [{ ticker_fund := pyUpper t }], str "OK via test"⟩

/-- The claim's policy, stated from the spec's words: return the rows
extracted from the FIRST pattern that yields at least one match,
never consulting any later pattern once a pattern has matched.
(Definition follows the claim, for comparison with the source-derived
`parse_nport_xml`.) -/
def nportFirstMatchPolicy (doc : Doc) (t : Str) : List Holding :=
  match doc.xml with
  | none => []
  | some root =>
    match candidates.find? (fun q => ¬ (evalQ doc.nsmap root q).isEmpty) with
    | some q => (evalQ doc.nsmap root q).filterMap (nportRow doc.nsmap t)
    | none => []

/-- The policy the code actually implements: return the rows of the
first pattern whose matches yield at least one RETAINED row; a
pattern that matches nodes producing no retained rows does not stop
the search. -/
def nportFirstYieldPolicy (doc : Doc) (t : Str) : List Holding :=
  match doc.xml with
  | none => []
  | some root =>
    match candidates.find?
        (fun q => ¬ ((evalQ doc.nsmap root q).filterMap (nportRow doc.nsmap t)).isEmpty) with
    | some q => (evalQ doc.nsmap root q).filterMap (nportRow doc.nsmap t)
    | none => []

/-- A document in which the fourth pattern (`.//invstOrSec`) matches
one bare node that yields no retained row, while the fifth pattern
(`.//investment`) matches a node with an issuer. -/
def c4doc : Doc :=
  ⟨[], some (.el none (str "doc") none
    [ .el none (str "invstOrSec") none []
    , .el none (str "investment") none
        [.el none (str "issuer") (some (str "ACME")) []] ]), []⟩

/-- A world whose Amundi endpoint answers with a well-formed JSON
value of the wrong shape (a top-level array). -/
def wC2 : World := { trivWorld with amundi := fun _ => .okJson (.arr []) }

/-- Well-formedness of a result dict keyed for ticker `key`: the
three contract keys are present, `'ticker'` holding `key` and
`'rows'` holding a row list. -/
def WFDict (key : Str) (d : Dict) : Prop :=
  d.lookup (str "ticker") = some (.s key) ∧
  (∃ l, d.lookup (str "rows") = some (.rows l)) ∧
  (∃ s, d.lookup (str "note") = some (.s s))

/-- Well-formedness of the cache file store: every payload file holds
a result dict for the uppercased ticker of its key (the invariant
`store_data` maintains for dicts produced by the extraction paths). -/
def WFCacheFiles (st : CacheState) : Prop :=
  ∀ k f, (k, f) ∈ st.files → WFDict k.1 f.content

/-- A world whose Amundi endpoint answers with a bare JSON number. -/
def wC10 : World := { trivWorld with amundi := fun _ => .okJson (.num ⟨3, 0⟩) }

/-- Distinctness of a projection over a list, as a computable check. -/
def distinctBy {α β : Type} [DecidableEq β] (f : α → β) : List α → Bool
  | [] => true
  | x :: xs => xs.all (fun y => f y ≠ f x) && distinctBy f xs

/-- Well-formedness of the metadata index as `store_data` maintains
it: every entry's recorded filename is the cache filename of its key,
and both tickers and filenames are pairwise distinct. -/
def WFInfo (st : CacheState) : Prop :=
  (∀ e ∈ st.info, e.2.filename = getCacheFilename e.1 e.2.maxFilings) ∧
  distinctBy (fun e : Str × InfoEntry => e.1) st.info = true ∧
  distinctBy (fun e : Str × InfoEntry => e.2.filename) st.info = true

/-- The payload the counterexample stores. -/
def c5dict : Dict := resToDict ⟨str "VTI", [{ ticker_fund := str "VTI" }], str "OK via t"⟩

/-- Two puts for the same ticker at different `maxFilings`
(TTL 1 day, both at time 0): the second overwrites the single
metadata-index slot for `"VTI"`. -/
def c5st : CacheState :=
  store_data 0 (store_data 0 ⟨1, [], []⟩ (str "VTI") 1 c5dict) (str "VTI") 2 c5dict

/-- The payload the witness stores. -/
def c5wdict : Dict := resToDict ⟨str "A", [{ ticker_fund := str "A" }], str "OK via t2"⟩

/-- Two puts for distinct tickers at TTL 1 day. -/
def c5wst : CacheState :=
  store_data 0 (store_data 0 ⟨1, [], []⟩ (str "A") 1 c5wdict) (str "B") 1 c5wdict

/-! ## Theorems -/

/-! ## Shared helpers for the claim theorems -/

theorem exIsOk_iff {ε α : Type} (x : Except ε α) :
    exIsOk x = true ↔ ∃ a, x = .ok a := by
  cases x <;> simp [exIsOk]

/-- Prefix tests are monotone under appending on the right. -/
theorem isPre_append (p a b : Str) (h : isPre p a = true) :
    isPre p (a ++ b) = true := by
  induction p generalizing a with
  | nil => simp [isPre]
  | cons c ps ih =>
    cases a with
    | nil => simp [isPre] at h
    | cons x xs =>
      simp only [isPre, Bool.and_eq_true, decide_eq_true_eq] at h
      simp only [List.cons_append, isPre, Bool.and_eq_true, decide_eq_true_eq]
      exact ⟨h.1, ih xs h.2⟩

/-- Per-path lemma: a tabular-feed result carries the input ticker,
and has a success note whenever it has rows. -/
theorem ishares_result_shape (t : Str) (resp : Except FetchErr Str) :
    (extract_via_ishares_csv t resp).ticker = t ∧
      ((extract_via_ishares_csv t resp).rows ≠ [] →
        isSuccessNote (extract_via_ishares_csv t resp).note = true) := by
  cases resp with
  | error e => exact ⟨rfl, fun h => absurd rfl h⟩
  | ok content =>
    show (parse_ishares_csv content t).ticker = t ∧
      ((parse_ishares_csv content t).rows ≠ [] →
        isSuccessNote (parse_ishares_csv content t).note = true)
    simp only [parse_ishares_csv]
    split
    · exact ⟨rfl, fun h => absurd rfl h⟩
    · exact ⟨rfl, fun _ =>
        isPre_append _ (str "OK via iShares CSV download (") _ (by decide)⟩

/-- Per-path lemma for the composition-API extraction. -/
theorem amundi_result_shape (t : Str) (resp : AmundiResp) (r : ExtractionResult)
    (h : extract_via_amundi_api t resp = .ok r) :
    r.ticker = t ∧ (r.rows ≠ [] → isSuccessNote r.note = true) := by
  cases resp with
  | reqErr msg =>
    simp only [extract_via_amundi_api] at h
    cases h
    exact ⟨rfl, fun h => absurd rfl h⟩
  | valErr msg =>
    simp only [extract_via_amundi_api] at h
    cases h
    exact ⟨rfl, fun h => absurd rfl h⟩
  | okJson data =>
    simp only [extract_via_amundi_api] at h
    split at h
    · cases h
    · split at h
      · cases h
        exact ⟨rfl, fun h => absurd rfl h⟩
      · split at h
        · cases h
        · split at h
          · cases h
          · split at h
            · cases h
            · split at h
              · cases h
                exact ⟨rfl, fun h => absurd rfl h⟩
              · split at h
                · cases h
                · split at h
                  · cases h
                  · cases h
                    exact ⟨rfl, fun _ =>
                      isPre_append _ (str "OK via Amundi API (") _ (by decide)⟩

/-- One filing-loop iteration only ever succeeds with non-empty rows
and a `"OK via ..."` note carrying the input ticker. -/
theorem tryFiling_shape (w : World) (t : Str) (cik : Str) (sid : Option Str)
    (f : FilingRec) (r : ExtractionResult)
    (h : tryFiling w t cik sid f = some r) :
    r.ticker = t ∧ r.rows ≠ [] ∧ isSuccessNote r.note = true := by
  unfold tryFiling at h
  split at h
  · cases h
  · split at h
    · cases h
    · split at h
      · cases h
      · cases h
      · split at h
        · cases h
        · split at h
          · cases h
          · split at h
            · cases h
            · next hrows =>
                cases h
                refine ⟨rfl, by simpa [List.isEmpty_iff] using hrows, ?_⟩
                exact isPre_append _ (str "OK via ") _ (by decide)

/-- The filing loop inherits the per-iteration shape. -/
theorem knownLoop_shape (w : World) (t : Str) (cik : Str) (sid : Option Str)
    (fs : List FilingRec) (r : ExtractionResult)
    (h : knownLoop w t cik sid fs = some r) :
    r.ticker = t ∧ r.rows ≠ [] ∧ isSuccessNote r.note = true := by
  induction fs with
  | nil => simp [knownLoop] at h
  | cons f fs ih =>
    simp only [knownLoop] at h
    cases htf : tryFiling w t cik sid f with
    | none => rw [htf] at h; exact ih h
    | some res =>
      rw [htf] at h
      cases h
      exact tryFiling_shape w t cik sid f r htf

/-- Per-path lemma for the regulatory-filing extraction. -/
theorem known_result_shape (w : World) (t : Str) (mf : Nat) (r : ExtractionResult)
    (h : extract_via_known_mapping w t mf = .ok r) :
    r.ticker = t ∧ (r.rows ≠ [] → isSuccessNote r.note = true) := by
  unfold extract_via_known_mapping at h
  split at h
  · cases h
  · split at h
    · cases h
      exact ⟨rfl, fun h => absurd rfl h⟩
    · split at h
      · rename_i res hloop
        cases h
        obtain ⟨h1, _, h3⟩ := knownLoop_shape w t _ _ _ r hloop
        exact ⟨h1, fun _ => h3⟩
      · cases h
        exact ⟨rfl, fun h => absurd rfl h⟩

/-- The auto-discovery filing loop only succeeds with rows and a
success note. -/
theorem autoLoop_shape (t : Str) (ds : List AutoFiling) (r : ExtractionResult)
    (h : autoLoop t ds = some r) :
    r.ticker = t ∧ r.rows ≠ [] ∧ isSuccessNote r.note = true := by
  induction ds with
  | nil => simp [autoLoop] at h
  | cons d ds ih =>
    simp only [autoLoop] at h
    split at h
    · exact ih h
    · split at h
      · exact ih h
      · next hrows =>
          cases h
          refine ⟨rfl, by simpa [List.isEmpty_iff] using hrows, ?_⟩
          exact isPre_append _ (str "OK via NPORT-P ") _ (by decide)

/-- Per-path lemma for the auto-discovery extraction. -/
theorem auto_result_shape (w : World) (t : Str) (mf : Nat) :
    (extract_via_auto_discovery w t mf).ticker = t ∧
      ((extract_via_auto_discovery w t mf).rows ≠ [] →
        isSuccessNote (extract_via_auto_discovery w t mf).note = true) := by
  unfold extract_via_auto_discovery
  split
  · exact ⟨rfl, fun h => absurd rfl h⟩
  · split
    · exact ⟨rfl, fun h => absurd rfl h⟩
    · exact ⟨rfl, fun h => absurd rfl h⟩
    · unfold parse_auto_discovered_filings
      split
      · exact ⟨rfl, fun h => absurd rfl h⟩
      · split
        · rename_i res hloop
          obtain ⟨h1, _, h3⟩ := autoLoop_shape t _ res hloop
          exact ⟨h1, fun _ => h3⟩
        · exact ⟨rfl, fun h => absurd rfl h⟩

/-- Combined shape lemma: any result `_fetch_fresh_data` returns
carries the requested ticker, and carries the success marker whenever
it has rows. -/
theorem fetch_fresh_shape (w : World) (t : Str) (mf : Nat) (r : ExtractionResult)
    (h : fetch_fresh w t mf = .ok r) :
    r.ticker = t ∧ (r.rows ≠ [] → isSuccessNote r.note = true) := by
  unfold fetch_fresh at h
  split at h
  · cases h
    exact ishares_result_shape t (w.ishares t)
  · split at h
    · exact amundi_result_shape t (w.amundi t) r h
    · split at h
      · exact known_result_shape w t mf r h
      · split at h
        · cases h
          exact auto_result_shape w t mf
        · cases h
          exact ⟨rfl, fun h => absurd rfl h⟩

/-! ## Claim C9 -/

/-- C9: the composition-API parser converts the fractional weight
`0.0325` (modelled exactly as `325 / 10^4`) to the percentage string
`"3.25"` with trailing zeros and the trailing decimal point trimmed —
both at the level of the `format_percent` helper and through the full
`_extract_via_amundi_api` path on an entry carrying that weight. -/
theorem c9_weight_percent :
    format_percent ⟨325, 4⟩ = str "3.25" ∧
    (exVal (extract_via_amundi_api (str "CG1") c9resp)).map
        (fun r => r.rows.map (fun h => h.weight_pct)) = some [str "3.25"] := by
  constructor
  · decide
  · rfl

/-! ## Claim C3 -/

/-- C3: with `cache_ttl_days ≤ 0` the cache is a complete no-op:
`store_data` leaves the state (and hence the payload files) untouched
and `get_cached_data` returns nothing, for every key and every
pre-existing state. -/
theorem c3_ttl_zero_cache_noop (now : Int) (st : CacheState) (t : Str) (mf : Nat)
    (d : Dict) (h : st.ttl ≤ 0) :
    store_data now st t mf d = st ∧ get_cached_data now st t mf = none := by
  constructor
  · unfold store_data
    rw [if_pos h]
  · unfold get_cached_data is_cache_valid isCacheValidCore
    rw [if_pos h]
    simp

/-- Witness for C3 at a concrete zero-TTL state. -/
theorem c3_witness :
    store_data 7 ⟨0, [], []⟩ (str "VTI") 10 [] = ⟨0, [], []⟩ ∧
      get_cached_data 7 ⟨0, [], []⟩ (str "VTI") 10 = none :=
  c3_ttl_zero_cache_noop 7 ⟨0, [], []⟩ (str "VTI") 10 [] (by decide)

/-! ## Claim C7 -/

/-- C7: `_fetch_fresh_data` resolves a ticker with the fixed
precedence, first match winning: (1) the iShares table, (2) the
Amundi table, (3) the known-CIK table, (4) auto-discovery when
enabled, (5) the unresolved note otherwise. -/
theorem c7_resolution_precedence (w : World) (t : Str) (mf : Nat) :
    ((ISHARES_ETF_MAPPINGS.lookup t).isSome = true →
      fetch_fresh w t mf = .ok (extract_via_ishares_csv t (w.ishares t))) ∧
    ((ISHARES_ETF_MAPPINGS.lookup t).isSome = false →
      (AMUNDI_ETF_MAPPINGS.lookup t).isSome = true →
      fetch_fresh w t mf = extract_via_amundi_api t (w.amundi t)) ∧
    ((ISHARES_ETF_MAPPINGS.lookup t).isSome = false →
      (AMUNDI_ETF_MAPPINGS.lookup t).isSome = false →
      (KNOWN_ETF_CIKS.lookup t).isSome = true →
      fetch_fresh w t mf = extract_via_known_mapping w t mf) ∧
    ((ISHARES_ETF_MAPPINGS.lookup t).isSome = false →
      (AMUNDI_ETF_MAPPINGS.lookup t).isSome = false →
      (KNOWN_ETF_CIKS.lookup t).isSome = false →
      w.enableAutoDiscovery = true →
      fetch_fresh w t mf = .ok (extract_via_auto_discovery w t mf)) ∧
    ((ISHARES_ETF_MAPPINGS.lookup t).isSome = false →
      (AMUNDI_ETF_MAPPINGS.lookup t).isSome = false →
      (KNOWN_ETF_CIKS.lookup t).isSome = false →
      w.enableAutoDiscovery = false →
      fetch_fresh w t mf =
        .ok ⟨t, [], str "CIK/series not found via known trusts (auto-discovery disabled)."⟩) := by
  refine ⟨fun h1 => ?_, fun h1 h2 => ?_, fun h1 h2 h3 => ?_,
    fun h1 h2 h3 h4 => ?_, fun h1 h2 h3 h4 => ?_⟩
  · unfold fetch_fresh; rw [if_pos h1]
  · unfold fetch_fresh; rw [if_neg (by simp [h1]), if_pos h2]
  · unfold fetch_fresh; rw [if_neg (by simp [h1]), if_neg (by simp [h2]), if_pos h3]
  · unfold fetch_fresh
    rw [if_neg (by simp [h1]), if_neg (by simp [h2]), if_neg (by simp [h3]), if_pos h4]
  · unfold fetch_fresh
    rw [if_neg (by simp [h1]), if_neg (by simp [h2]), if_neg (by simp [h3]),
      if_neg (by simp [h4])]

/-- Witness for C7: a tabular-feed ticker dispatches to the iShares
path. -/
theorem c7_witness :
    fetch_fresh trivWorld (str "IVV") 3 =
      .ok (extract_via_ishares_csv (str "IVV") (trivWorld.ishares (str "IVV"))) :=
  (c7_resolution_precedence trivWorld (str "IVV") 3).1 (by decide)

/-! ## Claim C1 -/

/-- Counterexample to C1: on a tabular feed consisting of only the
header line, the extraction returns `rows = []` together with the
success note `"OK via iShares CSV download (0 holdings)"`, so `rows`
non-empty and "note carries the success marker" are NOT equivalent. -/
theorem c1_counterexample :
    exVal (fetch_fresh wC1bad (str "IVV") 50) =
      some ⟨str "IVV", [], str "OK via iShares CSV download (0 holdings)"⟩ ∧
    ¬ resConsistent ⟨str "IVV", [], str "OK via iShares CSV download (0 holdings)"⟩ := by
  constructor
  · rfl
  · simp only [resConsistent]
    decide

/-- C1 (amended): one direction of the claimed invariant holds on
every path of `_fetch_fresh_data` — a returned result with non-empty
`rows` always carries the `"OK via "` success marker in `note` (and
every failure note lacks the marker); the converse fails, because the
tabular-feed and composition-API paths emit the success marker even
when every record was skipped (see `c1_counterexample`). -/
theorem c1_rows_imply_success_note (w : World) (t : Str) (mf : Nat)
    (r : ExtractionResult) (h : fetch_fresh w t mf = .ok r) (hr : r.rows ≠ []) :
    isSuccessNote r.note = true :=
  (fetch_fresh_shape w t mf r h).2 hr

/-- Witness for C1 (amended) at a concrete successful extraction. -/
theorem c1_witness :
    isSuccessNote (parse_ishares_csv (str "Ticker,Name,Sector\nAAPL,Apple Inc,Tech")
      (str "IVV")).note = true :=
  c1_rows_imply_success_note wC1ok (str "IVV") 50 _ rfl (by decide)

/-! ## Claim C8 -/

/-- Counterexample to C8: the record `AAPL,,Technology` has a symbol
(`"AAPL"`, not the placeholder) and merely lacks a name, yet the
parser skips it — the code skips when EITHER field is missing, not
only when both are. -/
theorem c8_counterexample :
    rowGetStr (recordOf (splitC ',' (str "Ticker,Name,Sector"))
        (splitC ',' (str "AAPL,,Technology"))) (str "Ticker") = str "AAPL" ∧
    isharesRow (str "IVV")
      (recordOf (splitC ',' (str "Ticker,Name,Sector"))
        (splitC ',' (str "AAPL,,Technology"))) = none ∧
    (parse_ishares_csv (str "Ticker,Name,Sector\nAAPL,,Technology") (str "IVV")).rows
      = [] := by
  refine ⟨by decide, by decide, by decide⟩

/-- C8 (amended): the tabular-feed parser skips a record exactly when
its symbol is missing, its symbol is the placeholder `"-"`, or its
name is missing — and additionally drops a record whose cleaned name
is empty or `"-"`. -/
theorem c8_skip_rule (t : Str) (rec : CsvRec) :
    isharesRow t rec = none ↔
      (rowGetStr rec (str "Ticker") = [] ∨ rowGetStr rec (str "Ticker") = str "-" ∨
       rowGetStr rec (str "Name") = [] ∨
       safe_clean (rowGetStr rec (str "Name")) = [] ∨
       safe_clean (rowGetStr rec (str "Name")) = str "-") := by
  simp only [isharesRow]
  split
  · next h1 => simp only [true_iff]; tauto
  · next h1 =>
    split
    · next h2 =>
      simp only [reduceCtorEq, false_iff]
      push_neg
      push_neg at h1
      exact ⟨h1.1, h1.2.1, h1.2.2, h2.1, h2.2⟩
    · next h2 =>
      simp only [true_iff]
      rw [Decidable.not_and_iff_or_not] at h2
      rcases h2 with h2 | h2
      · right; right; right; left; simpa using h2
      · right; right; right; right; simpa using h2

/-! ## Claim C6 -/

/-- Counterexample to C6: with the duplicated input
`["VTI", "VTI"]`, `total_positions` counts each occurrence (2) while
the per-ticker result map holds a single entry whose rows sum to 1 —
the third claimed equation fails on duplicate tickers. -/
theorem c6_counterexample :
    (get_multiple_etf_holdings fetchC6 [str "VTI", str "VTI"]).summary.total_positions = 2 ∧
    ((get_multiple_etf_holdings fetchC6 [str "VTI", str "VTI"]).individual_results.map
        (fun kv => kv.2.rows.length)).sum = 1 ∧
    (get_multiple_etf_holdings fetchC6 [str "VTI", str "VTI"]).summary.total_positions ≠
      ((get_multiple_etf_holdings fetchC6 [str "VTI", str "VTI"]).individual_results.map
        (fun kv => kv.2.rows.length)).sum := by
  refine ⟨by decide, by decide, by decide⟩

/-- The consolidated row list grows by each visited ticker's row
count, per input occurrence. -/
theorem gmhLoop_rows_length (fetch : Str → ExtractionResult) (ts : List Str) :
    ∀ (acc : List (Str × ExtractionResult)) (rows : List Holding),
      (gmhLoop fetch ts acc rows).2.length =
        rows.length + (ts.map (fun t => (fetch t).rows.length)).sum := by
  induction ts with
  | nil => intro acc rows; simp [gmhLoop]
  | cons t ts ih =>
    intro acc rows
    simp only [gmhLoop]
    by_cases h : (fetch t).rows ≠ []
    · rw [if_pos h, ih]
      simp
      omega
    · rw [if_neg h]
      rw [ih]
      simp only [List.map_cons, List.sum_cons]
      have : (fetch t).rows = [] := by simpa using h
      rw [this]
      simp

/-- C6 (amended): the batch summary satisfies
`total_etfs_processed = length(tickers)` and
`etfs_with_holdings = count of result-map entries with rows` exactly
as claimed; `total_positions` equals the sum of row counts over the
INPUT LIST (equivalently, the length of the consolidated row list),
which counts each duplicated ticker once per occurrence and therefore
coincides with the claimed per-map sum only when the ticker list has
no duplicates (see `c6_counterexample`). -/
theorem c6_batch_summary (fetch : Str → ExtractionResult) (tickers : List Str) :
    (get_multiple_etf_holdings fetch tickers).summary.total_etfs_processed =
      tickers.length ∧
    (get_multiple_etf_holdings fetch tickers).summary.etfs_with_holdings =
      ((get_multiple_etf_holdings fetch tickers).individual_results.filter
        (fun kv => kv.2.rows ≠ [])).length ∧
    (get_multiple_etf_holdings fetch tickers).summary.total_positions =
      (tickers.map (fun t => (fetch t).rows.length)).sum ∧
    (get_multiple_etf_holdings fetch tickers).summary.total_positions =
      (get_multiple_etf_holdings fetch tickers).consolidated_holdings.length := by
  refine ⟨rfl, rfl, ?_, rfl⟩
  show (gmhLoop fetch tickers [] []).2.length = _
  rw [gmhLoop_rows_length fetch tickers [] []]
  simp

/-! ## Claim C4 -/

/-- Counterexample to C4: on `c4doc` the parser consults the pattern
AFTER the first matching one — `_parse_nport_xml` returns the row
found by the fifth pattern, not the (empty) extraction of the fourth
pattern that the first-match policy prescribes. -/
theorem c4_counterexample :
    parse_nport_xml c4doc (str "X") =
      [{ ticker_fund := str "X", issuer := str "ACME" }] ∧
    nportFirstMatchPolicy c4doc (str "X") = [] ∧
    parse_nport_xml c4doc (str "X") ≠ nportFirstMatchPolicy c4doc (str "X") := by
  refine ⟨by decide, by decide, by decide⟩

/-- The pattern loop started with an empty accumulator implements the
first-yield policy. -/
theorem nportLoop_eq_firstYield (nsmap : List (Str × Str)) (root : XElem) (t : Str) :
    ∀ qs : List Q,
      nportLoop nsmap root t qs [] =
        (match qs.find?
            (fun q => ¬ ((evalQ nsmap root q).filterMap (nportRow nsmap t)).isEmpty) with
        | some q => (evalQ nsmap root q).filterMap (nportRow nsmap t)
        | none => []) := by
  intro qs
  induction qs with
  | nil => simp [nportLoop]
  | cons q qs ih =>
    simp only [nportLoop, List.nil_append]
    by_cases hpos : (evalQ nsmap root q).isEmpty
    · rw [if_pos hpos]
      have hrows : ((evalQ nsmap root q).filterMap (nportRow nsmap t)).isEmpty = true := by
        rw [List.isEmpty_iff] at hpos ⊢
        rw [hpos]
        rfl
      rw [List.find?_cons_of_neg _ (by simp [hrows]), ih]
    · rw [if_neg hpos]
      by_cases hrows : ((evalQ nsmap root q).filterMap (nportRow nsmap t)).isEmpty
      · rw [if_pos hrows]
        have heq : (evalQ nsmap root q).filterMap (nportRow nsmap t) = [] :=
          List.isEmpty_iff.mp hrows
        rw [heq, List.find?_cons_of_neg _ (by simp [hrows]), ih]
      · rw [if_neg hrows]
        rw [List.find?_cons_of_pos _ (by simp [hrows])]

/-- C4 (amended): for every input document, `_parse_nport_xml`
returns the rows of the first structural pattern whose matches yield
at least one retained row (first-success on RETAINED ROWS); a pattern
that matches position nodes but retains none of them does not stop
the search, so the first pattern with a match need not be the one
used (see `c4_counterexample`). -/
theorem c4_first_yield_policy (doc : Doc) (t : Str) :
    parse_nport_xml doc t = nportFirstYieldPolicy doc t := by
  unfold parse_nport_xml nportFirstYieldPolicy
  cases doc.xml with
  | none => rfl
  | some root => exact nportLoop_eq_firstYield doc.nsmap root t candidates

/-! ## Claim C2 -/

/-- Counterexample to C2: for the composition-API ticker `CG1`, a
structurally malformed (non-object) JSON response makes
`get_etf_holdings` raise `AttributeError` past the public boundary
(`data.get("products")` on a list, src/etf_holdings.py:796) instead
of degrading to a note. -/
theorem c2_counterexample :
    exErr (get_etf_holdings wC2 ⟨3, [], []⟩ (str "CG1") 50) =
      some PyErr.attributeError := by decide

/-- C2 (amended): the per-ticker lookup never raises PROVIDED the
composition-API response processing and the filing-catalog listing
themselves return normally — every other internal failure (network
errors, per-filing errors, CSV download/parse failures, cache reads,
auto-discovery) is caught and degraded to the `note` field; and the
hierarchical parser is total, returning an empty row list when the
document does not even parse.  Malformed JSON shapes in the two named
steps raise past the boundary (see `c2_counterexample`). -/
theorem c2_exception_boundary :
    (∀ (w : World) (st : CacheState) (t : Str) (mf : Nat),
      (∀ s, exIsOk (extract_via_amundi_api s (w.amundi s)) = true) →
      (∀ c, exIsOk (list_recent_filings (w.submissions c)) = true) →
      exIsOk (get_etf_holdings w st t mf) = true) ∧
    (∀ (raw : Str) (m : List (Str × Str)) (t : Str),
      parse_nport_xml ⟨raw, none, m⟩ t = []) := by
  constructor
  · intro w st t mf hA hS
    simp only [get_etf_holdings]
    cases hc : (if w.enableCache then get_cached_data w.now st (pyUpper t) mf else none) with
    | some cached => rfl
    | none =>
      suffices hok : exIsOk (fetch_fresh w (pyUpper t) mf) = true by
        obtain ⟨r, hr⟩ := (exIsOk_iff _).mp hok
        rw [hr]
        rfl
      unfold fetch_fresh
      split
      · rfl
      · split
        · exact hA (pyUpper t)
        · split
          · unfold extract_via_known_mapping
            obtain ⟨fl, hfl⟩ := (exIsOk_iff _).mp (hS (knownCik (pyUpper t)))
            simp only [hfl]
            split
            · rfl
            · split
              · rfl
              · rfl
          · split
            · rfl
            · rfl
  · intro raw m t
    rfl

/-- Witness for C2 (amended) at the inert world: every oracle fails
with a transport error, yet the lookup returns a result. -/
theorem c2_witness :
    exIsOk (get_etf_holdings trivWorld ⟨3, [], []⟩ (str "ZZZ") 5) = true ∧
      parse_nport_xml ⟨str "<junk", none, []⟩ (str "ZZZ") = [] :=
  ⟨c2_exception_boundary.1 trivWorld ⟨3, [], []⟩ (str "ZZZ") 5
      (fun _ => rfl) (fun _ => rfl),
    c2_exception_boundary.2 (str "<junk") [] (str "ZZZ")⟩

/-! ## Claim C10 -/

/-- Round-trip of `Char.ofNat` on valid code points. -/
theorem toNat_ofNat_valid {n : Nat} (h : n < 55296) : (Char.ofNat n).toNat = n := by
  rw [Char.ofNat, dif_pos (Or.inl h)]
  simp [Char.ofNatAux, Char.toNat, UInt32.toNat, BitVec.toNat_ofNatLt]

/-- ASCII upper-casing is idempotent per character. -/
theorem upC_idem (c : Char) : upC (upC c) = upC c := by
  unfold upC
  by_cases h : 97 ≤ c.toNat ∧ c.toNat ≤ 122
  · rw [if_pos h]
    have hv : (Char.ofNat (c.toNat - 32)).toNat = c.toNat - 32 :=
      toNat_ofNat_valid (by omega)
    rw [if_neg (by omega)]
  · rw [if_neg h, if_neg h]

/-- Idempotence of `ticker.upper()`. -/
theorem pyUpper_idem (s : Str) : pyUpper (pyUpper s) = pyUpper s := by
  simp [pyUpper, List.map_map, Function.comp_def, upC_idem]

/-- A successful association-list lookup locates a member. -/
theorem lookup_mem {α β : Type} [BEq α] [LawfulBEq α]
    {l : List (α × β)} {k : α} {v : β} (h : l.lookup k = some v) : (k, v) ∈ l := by
  induction l with
  | nil => cases h
  | cons kv l ih =>
    rcases kv with ⟨a, b⟩
    rw [List.lookup_cons] at h
    cases hk : (k == a) with
    | true =>
      simp only [hk] at h
      cases h
      rw [eq_of_beq hk]
      exact List.mem_cons_self _ _
    | false =>
      simp only [hk] at h
      exact List.mem_cons_of_mem _ (ih h)

/-- Filtering out one key leaves lookups of other keys unchanged. -/
theorem lookup_filter_ne {β : Type} (l : List (Str × β)) (k k0 : Str) (hne : k ≠ k0) :
    (l.filter (fun kv => kv.1 ≠ k0)).lookup k = l.lookup k := by
  induction l with
  | nil => rfl
  | cons kv l ih =>
    rcases kv with ⟨a, b⟩
    by_cases ha : a = k0
    · subst ha
      rw [List.filter_cons_of_neg (by simp)]
      rw [ih, List.lookup_cons]
      have hk : (k == a) = false := by simpa using hne
      simp only [hk]
    · rw [List.filter_cons_of_pos (by simpa using ha)]
      rw [List.lookup_cons, List.lookup_cons]
      cases hk : (k == a) with
      | true => simp only [hk]
      | false => simp only [hk]; exact ih

/-- Counterexample to C10: for the (lower-cased) composition-API
ticker `"fmi"`, a malformed response makes `get_etf_holdings` raise
`AttributeError` instead of returning any dict at all — so the claim
does not hold on this failure path. -/
theorem c10_counterexample :
    exErr (get_etf_holdings wC10 ⟨3, [], []⟩ (str "fmi") 50) =
      some PyErr.attributeError := by decide

/-- C10 (amended): whenever `get_etf_holdings` RETURNS (rather than
raising on a malformed composition-API or filing-catalog response,
see `c10_counterexample`), and the cache payloads were produced by
`store_data`, the returned dict contains the keys `'ticker'`,
`'rows'` and `'note'`, with `result['ticker']` the uppercased input
ticker and `result['rows']` a row list — on cache hits (with
`'_cache_info'` stripped), cache misses, and every failure note. -/
theorem c10_result_dict_shape (w : World) (st : CacheState) (t : Str) (mf : Nat)
    (d : Dict) (st2 : CacheState) (hwf : WFCacheFiles st)
    (h : get_etf_holdings w st t mf = .ok (d, st2)) : WFDict (pyUpper t) d := by
  simp only [get_etf_holdings] at h
  cases hc : (if w.enableCache then get_cached_data w.now st (pyUpper t) mf else none) with
  | some cached =>
    rw [hc] at h
    cases h
    have hget : get_cached_data w.now st (pyUpper t) mf = some cached := by
      cases hEC : w.enableCache with
      | true => rw [hEC] at hc; simpa using hc
      | false => rw [hEC] at hc; simp at hc
    unfold get_cached_data at hget
    split at hget
    · rw [Option.map_eq_some'] at hget
      obtain ⟨f, hf, hfc⟩ := hget
      have hmem := lookup_mem hf
      have hwfd := hwf _ _ hmem
      subst hfc
      obtain ⟨h1, ⟨l, h2⟩, ⟨s, h3⟩⟩ := hwfd
      refine ⟨?_, ⟨l, ?_⟩, ⟨s, ?_⟩⟩
      · rw [lookup_filter_ne _ _ _ (by decide), h1]
        simp [getCacheFilename, pyUpper_idem]
      · rw [lookup_filter_ne _ _ _ (by decide), h2]
      · rw [lookup_filter_ne _ _ _ (by decide), h3]
    · cases hget
  | none =>
    rw [hc] at h
    cases hff : fetch_fresh w (pyUpper t) mf with
    | error e => rw [hff] at h; cases h
    | ok r =>
      rw [hff] at h
      cases h
      have hticker := (fetch_fresh_shape w (pyUpper t) mf r hff).1
      refine ⟨?_, ⟨r.rows, rfl⟩, ⟨r.note, rfl⟩⟩
      show some (DVal.s r.ticker) = some (DVal.s (pyUpper t))
      rw [hticker]

/-- Witness for C10 (amended) at the inert world and an empty,
trivially well-formed cache. -/
theorem c10_witness :
    WFDict (pyUpper (str "abc"))
      (resToDict ⟨str "ABC", [],
        str "CIK/series not found via known trusts (auto-discovery disabled)."⟩) :=
  c10_result_dict_shape trivWorld ⟨3, [], []⟩ (str "abc") 7 _ ⟨3, [], []⟩
    (fun _ _ hm => absurd hm (List.not_mem_nil _)) rfl

/-! ## Claim C5 -/

/-- Generic version of `lookup_filter_ne` for product keys. -/
theorem lookup_filter_ne2 {β : Type} (l : List ((Str × Nat) × β)) (k k0 : Str × Nat)
    (hne : k ≠ k0) :
    (l.filter (fun kv => kv.1 ≠ k0)).lookup k = l.lookup k := by
  induction l with
  | nil => rfl
  | cons kv l ih =>
    rcases kv with ⟨a, b⟩
    by_cases ha : a = k0
    · subst ha
      rw [List.filter_cons_of_neg (by simp)]
      rw [ih, List.lookup_cons]
      have hk : (k == a) = false := by simpa using hne
      simp only [hk]
    · rw [List.filter_cons_of_pos (by simpa using ha)]
      rw [List.lookup_cons, List.lookup_cons]
      cases hk : (k == a) with
      | true => simp only [hk]
      | false => simp only [hk]; exact ih

/-- Filtering out a key removes it from lookups. -/
theorem lookup_filter_self {β : Type} (l : List ((Str × Nat) × β)) (k : Str × Nat) :
    (l.filter (fun kv => kv.1 ≠ k)).lookup k = none := by
  induction l with
  | nil => rfl
  | cons kv l ih =>
    rcases kv with ⟨a, b⟩
    by_cases ha : a = k
    · subst ha
      rw [List.filter_cons_of_neg (by simp)]
      exact ih
    · rw [List.filter_cons_of_pos (by simpa using ha)]
      rw [List.lookup_cons]
      have hk : (k == a) = false := by simp [Ne.symm ha]
      simp only [hk]
      exact ih

/-- The validity check reads the file store only at the entry's own
cache filename. -/
theorem isCacheValidCore_congr (now ttl : Int)
    (files files0 : List ((Str × Nat) × CacheFile)) (t : Str) (mf : Nat)
    (h : files.lookup (getCacheFilename t mf) = files0.lookup (getCacheFilename t mf)) :
    isCacheValidCore now ttl files t mf = isCacheValidCore now ttl files0 t mf := by
  unfold isCacheValidCore
  rw [h]

/-- Behaviour of the `cleanup_expired` iteration, for an index whose
entries record their own cache filename, pairwise-distinctly:
(a) the expired-ticker accumulator collects exactly the invalid
entries' tickers (judged against the initial file store `files0`);
(b) every invalid entry's payload file is gone afterwards;
(c) any key that is no entry's filename is untouched;
(d) every valid entry's payload file is untouched. -/
theorem cleanupLoop_spec (now ttl : Int) (files0 : List ((Str × Nat) × CacheFile)) :
    ∀ (entries : List (Str × InfoEntry)) (files : List ((Str × Nat) × CacheFile))
      (expired : List Str),
      (∀ e ∈ entries, e.2.filename = getCacheFilename e.1 e.2.maxFilings) →
      distinctBy (fun e : Str × InfoEntry => e.2.filename) entries = true →
      (∀ e ∈ entries, files.lookup e.2.filename = files0.lookup e.2.filename) →
      (cleanupLoop now ttl entries files expired).2 =
          expired ++ (entries.filter
            (fun e => isCacheValidCore now ttl files0 e.1 e.2.maxFilings = false)).map
              (fun e => e.1) ∧
      (∀ e ∈ entries, isCacheValidCore now ttl files0 e.1 e.2.maxFilings = false →
        (cleanupLoop now ttl entries files expired).1.lookup e.2.filename = none) ∧
      (∀ key : Str × Nat, (∀ e ∈ entries, e.2.filename ≠ key) →
        (cleanupLoop now ttl entries files expired).1.lookup key = files.lookup key) ∧
      (∀ e ∈ entries, isCacheValidCore now ttl files0 e.1 e.2.maxFilings = true →
        (cleanupLoop now ttl entries files expired).1.lookup e.2.filename =
          files.lookup e.2.filename) := by
  intro entries
  induction entries with
  | nil =>
    intro files expired _ _ _
    refine ⟨by simp [cleanupLoop], ?_, ?_, ?_⟩
    · intro e he
      simp at he
    · intro key _
      simp [cleanupLoop]
    · intro e he
      simp at he
  | cons e0 rest ih =>
    intro files expired hwf hdist hagree
    have hwf0 := hwf e0 (List.mem_cons_self _ _)
    have hag0 := hagree e0 (List.mem_cons_self _ _)
    have hdrest : ∀ e ∈ rest, e.2.filename ≠ e0.2.filename := by
      have := (Bool.and_eq_true _ _).mp hdist
      intro e he
      have := List.all_eq_true.mp this.1 e he
      simpa using this
    have hdist' : distinctBy (fun e : Str × InfoEntry => e.2.filename) rest = true :=
      ((Bool.and_eq_true _ _).mp hdist).2
    have hwf' : ∀ e ∈ rest, e.2.filename = getCacheFilename e.1 e.2.maxFilings :=
      fun e he => hwf e (List.mem_cons_of_mem _ he)
    have hv : isCacheValidCore now ttl files e0.1 e0.2.maxFilings =
        isCacheValidCore now ttl files0 e0.1 e0.2.maxFilings := by
      apply isCacheValidCore_congr
      rw [← hwf0]
      exact hag0
    simp only [cleanupLoop]
    cases hv0 : isCacheValidCore now ttl files0 e0.1 e0.2.maxFilings with
    | true =>
      rw [hv, hv0, if_pos rfl]
      have hagree' : ∀ e ∈ rest, files.lookup e.2.filename = files0.lookup e.2.filename :=
        fun e he => hagree e (List.mem_cons_of_mem _ he)
      obtain ⟨ha, hb, hc, hd⟩ := ih files expired hwf' hdist' hagree'
      refine ⟨?_, ?_, ?_, ?_⟩
      · rw [ha, List.filter_cons_of_neg (by simp [hv0])]
      · intro e he hinv
        rcases List.mem_cons.mp he with rfl | he'
        · rw [hinv] at hv0; cases hv0
        · exact hb e he' hinv
      · intro key hk
        exact hc key (fun e he => hk e (List.mem_cons_of_mem _ he))
      · intro e he _
        rcases List.mem_cons.mp he with rfl | he'
        · exact hc e.2.filename hdrest
        · exact hd e he' (by assumption)
    | false =>
      rw [hv, hv0, if_neg (by simp)]
      have hagree' : ∀ e ∈ rest,
          (files.filter (fun f => f.1 ≠ e0.2.filename)).lookup e.2.filename =
            files0.lookup e.2.filename := by
        intro e he
        rw [lookup_filter_ne2 _ _ _ (hdrest e he)]
        exact hagree e (List.mem_cons_of_mem _ he)
      obtain ⟨ha, hb, hc, hd⟩ := ih _ (expired ++ [e0.1]) hwf' hdist' hagree'
      refine ⟨?_, ?_, ?_, ?_⟩
      · rw [ha, List.filter_cons_of_pos (by simp [hv0])]
        simp
      · intro e he hinv
        rcases List.mem_cons.mp he with rfl | he'
        · rw [hc e.2.filename hdrest]
          exact lookup_filter_self files e.2.filename
        · exact hb e he' hinv
      · intro key hk
        rw [hc key (fun e he => hk e (List.mem_cons_of_mem _ he))]
        exact lookup_filter_ne2 _ _ _ (Ne.symm (hk e0 (List.mem_cons_self _ _)))
      · intro e he hval
        rcases List.mem_cons.mp he with rfl | he'
        · rw [hval] at hv0; cases hv0
        · rw [hd e he' hval]
          exact lookup_filter_ne2 _ _ _ (hdrest e he')

/-- A distinct projection makes the projection injective on members. -/
theorem distinctBy_inj {α β : Type} [DecidableEq β] (f : α → β) (l : List α)
    (hd : distinctBy f l = true) :
    ∀ x ∈ l, ∀ y ∈ l, f x = f y → x = y := by
  induction l with
  | nil => intro x hx; simp at hx
  | cons a l ih =>
    obtain ⟨h1, h2⟩ := (Bool.and_eq_true _ _).mp hd
    intro x hx y hy hf
    rcases List.mem_cons.mp hx with rfl | hx' <;> rcases List.mem_cons.mp hy with rfl | hy'
    · rfl
    · have := List.all_eq_true.mp h1 y hy'
      simp [hf.symm] at this
    · have := List.all_eq_true.mp h1 x hx'
      simp [hf] at this
    · exact ih h2 x hx' y hy' hf

/-- Counterexample to C5: at time 5 both payload files are expired,
yet `cleanup_expired` removes only the indexed one — it returns 1,
and the orphaned expired payload file `VTI_1.json` created by the
first put remains on disk. -/
theorem c5_counterexample :
    (cleanup_expired 5 c5st).1 = 1 ∧
    ((cleanup_expired 5 c5st).2.files.lookup (str "VTI", 1)).isSome = true ∧
    is_cache_valid 5 (cleanup_expired 5 c5st).2 (str "VTI") 1 = false ∧
    is_cache_valid 5 c5st (str "VTI") 1 = false := by
  refine ⟨by decide, by decide, by decide, by decide⟩

/-- C5 (amended): `cleanup_expired` sweeps the INDEXED entries: when
the metadata index is well-formed (filenames derived from keys,
pairwise distinct), the call removes exactly the currently-invalid
indexed entries — the count returned is their number, the surviving
index is exactly the valid entries, every invalid indexed entry's
payload file is deleted, and valid entries' files are untouched.
Payload files no longer referenced by the index (orphaned by a later
put of the same ticker at a different `maxFilings`) are NOT removed,
even when expired (see `c5_counterexample`). -/
theorem c5_sweep_indexed_only (now : Int) (st : CacheState) (hwf : WFInfo st) :
    (cleanup_expired now st).1 =
      (st.info.filter
        (fun e => is_cache_valid now st e.1 e.2.maxFilings = false)).length ∧
    (cleanup_expired now st).2.info =
      st.info.filter (fun e => is_cache_valid now st e.1 e.2.maxFilings) ∧
    (∀ e ∈ st.info, is_cache_valid now st e.1 e.2.maxFilings = false →
      (cleanup_expired now st).2.files.lookup e.2.filename = none) ∧
    (∀ e ∈ st.info, is_cache_valid now st e.1 e.2.maxFilings = true →
      (cleanup_expired now st).2.files.lookup e.2.filename =
        st.files.lookup e.2.filename) := by
  obtain ⟨hwf1, hdk, hdf⟩ := hwf
  obtain ⟨ha, hb, hc, hd⟩ :=
    cleanupLoop_spec now st.ttl st.files st.info st.files [] hwf1 hdf (fun e _ => rfl)
  have hmem_iff : ∀ e ∈ st.info,
      (e.1 ∈ (cleanupLoop now st.ttl st.info st.files []).2 ↔
        isCacheValidCore now st.ttl st.files e.1 e.2.maxFilings = false) := by
    intro e he
    rw [ha]
    simp only [List.nil_append, List.mem_map]
    constructor
    · rintro ⟨e', he', hee⟩
      have he'mem := (List.mem_filter.mp he').1
      have he'inv := (List.mem_filter.mp he').2
      have : e' = e := distinctBy_inj _ _ hdk e' he'mem e he hee
      subst this
      simpa using he'inv
    · intro hinv
      exact ⟨e, List.mem_filter.mpr ⟨he, by simpa using hinv⟩, rfl⟩
  refine ⟨?_, ?_, ?_, ?_⟩
  · show (cleanupLoop now st.ttl st.info st.files []).2.length = _
    rw [ha]
    simp only [List.nil_append, List.length_map]
    rfl
  · show st.info.filter _ = st.info.filter _
    apply List.filter_congr
    intro e he
    have hm := hmem_iff e he
    cases hv : isCacheValidCore now st.ttl st.files e.1 e.2.maxFilings with
    | true =>
      have hnot : e.1 ∉ (cleanupLoop now st.ttl st.info st.files []).2 := by
        intro hmem
        rw [hm.mp hmem] at hv
        simp at hv
      unfold is_cache_valid
      rw [hv]
      simp [hnot]
    | false =>
      unfold is_cache_valid
      rw [hv]
      simp [hm.mpr hv]
  · intro e he hinv
    exact hb e he hinv
  · intro e he hval
    exact hd e he hval

/-- Witness for C5 (amended): at time 5 both indexed entries are
expired; the sweep reports 2, empties the index, and deletes the
indexed payload file `A_1.json`. -/
theorem c5_witness :
    (cleanup_expired 5 c5wst).1 = 2 ∧
    (cleanup_expired 5 c5wst).2.info = [] ∧
    (cleanup_expired 5 c5wst).2.files.lookup (str "A", 1) = none := by
  have h := c5_sweep_indexed_only 5 c5wst
    (by refine ⟨by decide, by decide, by decide⟩)
  refine ⟨?_, ?_, ?_⟩
  · rw [h.1]
    decide
  · rw [h.2.1]
    decide
  · exact h.2.2.1 (str "A", ⟨(str "A", 1), 1, 0⟩) (by decide) (by decide)
